import Mathlib

/-!
Shallow embedding of the NutritionalValue session protocol engine
(Go package `server`, file with `handleWebSocketMessage`, `handleScan`,
`handleConfirmScan`, `handleGetHistory`, plus the data model in
`internal/models/nutrition.go` and the repository in
`internal/database/database.go`).

Modelling conventions:
- Go `float64` nutrient values are modelled as `ℚ` (exact rationals);
  none of the verified properties depends on floating-point rounding.
- Go `time.Time` is modelled as `Int` (a timestamp on a linear clock);
  `t.After(u)` is strict comparison `u < t`, exactly as in the Go library.
- `uuid.New().String()` is an external random generator assumed never to
  repeat; it is modelled as an injective supply `uuidGen` indexed by a
  mint counter carried in the server state.
- `base64.StdEncoding.DecodeString` and `ml.Model.ProcessImage` are
  external capabilities; they are fields of an environment record `Env`
  (a failing call is `none`).
- The SQLite repository is modelled as in-memory lists with the upsert
  semantics of the SQL statements; whether a `Save*`/`GetRecent*` call
  fails is an environment choice in `RepoFlags` (a failed SQL exec
  writes nothing).
- JSON payloads (`map[string]any` in Go) are association lists of
  dynamically typed values; the handlers only ever type-assert `string`
  and `float64`, so payload values are modelled by a flat `JValue`
  (any non-string, non-number value behaves as a failed type assertion,
  exactly as in the Go code).
-/

/-- Raw image bytes (`[]byte` in Go). -/
abbrev Bytes := List Nat

/-- Dynamically typed JSON payload value as the Go handlers see it inside a
`map[string]any`. -/
inductive JValue where
  | jnull : JValue
  | jbool (b : Bool) : JValue
  | jnum (q : ℚ) : JValue
  | jstr (s : String) : JValue
deriving DecidableEq, Repr

/-- Message payload: the Go `data map[string]any`. -/
abbrev JObj := List (String × JValue)

/-- Top-level value inside the envelope `map[string]any`: may itself be an
object (the `data` field). -/
inductive JTop where
  | leaf (v : JValue) : JTop
  | jobj (fs : JObj) : JTop
deriving DecidableEq, Repr

/-- Wire envelope as parsed by `json.Unmarshal` into `map[string]any`. -/
abbrev Envelope := List (String × JTop)

/-- Map lookup on an association list (first binding wins, as in a Go map
whose keys are unique). -/
def lookupJ {α : Type} : List (String × α) → String → Option α
  | [], _ => none
  | (k, v) :: rest, key => if k = key then some v else lookupJ rest key

/-- Delete a key from an association list (Go `sync.Map.Delete`). -/
def eraseKey {α : Type} : List (String × α) → String → List (String × α)
  | [], _ => []
  | (k, v) :: rest, key =>
      if k = key then eraseKey rest key else (k, v) :: eraseKey rest key

/-- Insert a binding, overwriting any previous one (Go `sync.Map.Store`). -/
def storePut {α : Type} (m : List (String × α)) (k : String) (v : α) :
    List (String × α) :=
  (k, v) :: eraseKey m k

/-- Go type assertion `v.(string)` on a payload field. -/
def asString : Option JValue → Option String
  | some (JValue.jstr s) => some s
  | _ => none

/-- Go type assertion `v.(float64)` on a payload field. -/
def asNumber : Option JValue → Option ℚ
  | some (JValue.jnum q) => some q
  | _ => none

/-- Defensive numeric read used by `handleConfirmScan`: a missing or
wrong-typed field degrades to the default. -/
def readNumD (data : JObj) (key : String) (dflt : ℚ) : ℚ :=
  match asNumber (lookupJ data key) with
  | some q => q
  | none => dflt

/-- The `models.NutritionalInfo` record. -/
structure NutritionalInfo where
  id : String
  totalWeight : ℚ
  calories : ℚ
  protein : ℚ
  carbs : ℚ
  fat : ℚ
  fiber : ℚ
  sugar : ℚ
  imagePath : String
  createdAt : Int
  updatedAt : Int
deriving DecidableEq, Repr

/-- The `models.NutritionScan` record (the durable ConfirmedScan). -/
structure NutritionScan where
  id : String
  imageData : Bytes
  status : String
  result : Option NutritionalInfo
  error : String
  createdAt : Int
  updatedAt : Int
deriving DecidableEq, Repr

/-- Model of `uuid.New().String()`: the n-th identifier ever minted by the
process. The generator is injective, which models the uniqueness guarantee
of the external UUID library. -/
def uuidGen (n : Nat) : String :=
  String.mk (List.replicate (n + 1) 'u')

/-- The server state shared by all connection handlers: the pending-scan map
`tempImageData`, the uuid mint counter, the list of scan ids already issued
in a `scan_result` (ghost state recording the observable history), and the
repository tables. -/
structure ServerState where
  tempImageData : List (String × Bytes)
  uuidCounter : Nat
  issuedScanIds : List String
  dbInfos : List NutritionalInfo
  dbScans : List NutritionScan
deriving DecidableEq, Repr

/-- The empty state of a freshly started server process. -/
def initState : ServerState :=
  { tempImageData := [], uuidCounter := 0, issuedScanIds := [],
    dbInfos := [], dbScans := [] }

/-- External environment of one message-handling step: the base64 decoder,
the Analyzer, the clock, and the day/week boundaries the handler derives
from the clock and the server's locale. -/
structure Env where
  decodeBase64 : String → Option Bytes
  processImage : Bytes → Option NutritionalInfo
  now : Int
  startOfDay : Int
  startOfWeek : Int

/-- Failure injection for the external Repository calls. -/
structure RepoFlags where
  saveInfoFails : Bool
  saveScanFails : Bool
  getRecentFails : Bool
deriving DecidableEq, Repr

/-- Rolling totals of the four primary macros (the anonymous
`struct { Calories, Protein, Carbs, Fat float64 }` in `handleGetHistory`). -/
structure Totals where
  calories : ℚ
  protein : ℚ
  carbs : ℚ
  fat : ℚ
deriving DecidableEq, Repr

/-- The Go zero value of the totals struct. -/
def Totals.zero : Totals := ⟨0, 0, 0, 0⟩

/-- Add one record's four primary macros into a running total. -/
def Totals.add (t : Totals) (info : NutritionalInfo) : Totals :=
  ⟨t.calories + info.calories, t.protein + info.protein,
    t.carbs + info.carbs, t.fat + info.fat⟩

/-- Outbound websocket messages (`sendMessage` / `sendError`). -/
inductive OutMsg where
  | scanResult (info : NutritionalInfo) : OutMsg
  | scanSaved : OutMsg
  | history (items : List NutritionalInfo) (dayTotal weekTotal : Totals) : OutMsg
  | error (message : String) : OutMsg
deriving DecidableEq, Repr

/-- Upsert of `SaveNutritionalInfo`: `INSERT ... ON CONFLICT(id) DO UPDATE`
updates every column except `id` and `created_at`. -/
def upsertInfo (l : List NutritionalInfo) (info : NutritionalInfo) :
    List NutritionalInfo :=
  if l.any (fun old => old.id = info.id) then
    l.map (fun old =>
      if old.id = info.id then { info with createdAt := old.createdAt } else old)
  else l ++ [info]

/-- Upsert of `SaveScan`: `INSERT OR REPLACE` replaces the whole row. -/
def upsertScan (l : List NutritionScan) (scan : NutritionScan) :
    List NutritionScan :=
  if l.any (fun old => old.id = scan.id) then
    l.map (fun old => if old.id = scan.id then scan else old)
  else l ++ [scan]

/-- Insert into a list kept sorted by `createdAt` descending (model of
`ORDER BY created_at DESC`). -/
def insertByCreatedDesc (info : NutritionalInfo) :
    List NutritionalInfo → List NutritionalInfo
  | [] => [info]
  | x :: xs =>
      if x.createdAt ≤ info.createdAt then info :: x :: xs
      else x :: insertByCreatedDesc info xs

/-- Sort by `createdAt` descending. -/
def sortByCreatedDesc : List NutritionalInfo → List NutritionalInfo
  | [] => []
  | x :: xs => insertByCreatedDesc x (sortByCreatedDesc xs)

/-- Model of `GetRecentNutritionalInfo`: the `limit` most recent records,
ordered by creation time descending. -/
def getRecentNutritionalInfo (l : List NutritionalInfo) (limit : Nat) :
    List NutritionalInfo :=
  (sortByCreatedDesc l).take limit

/-- The accumulation loop of `handleGetHistory` (lines 226-243): one pass
over the records; a record strictly after `startOfWeek` (Go
`info.CreatedAt.After(startOfWeek)`) is added to the week total, and inside
that branch a record strictly after `startOfDay` is also added to the day
total. The accumulator pair is `(dayTotal, weekTotal)`. -/
def historyLoop (startOfDay startOfWeek : Int) (acc : Totals × Totals) :
    List NutritionalInfo → Totals × Totals
  | [] => acc
  | info :: rest =>
      let acc' :=
        if startOfWeek < info.createdAt then
          (if startOfDay < info.createdAt then acc.1.add info else acc.1,
            acc.2.add info)
        else acc
      historyLoop startOfDay startOfWeek acc' rest

/-- Day/week totals of a record list, starting from zero totals. -/
def historyTotals (startOfDay startOfWeek : Int)
    (infos : List NutritionalInfo) : Totals × Totals :=
  historyLoop startOfDay startOfWeek (Totals.zero, Totals.zero) infos

/-- The `handleScan` handler (lines 156-201): validate `image` and
`totalWeight`, decode, run the Analyzer, overwrite the draft's id with a
fresh uuid and its weight with the client's weight, store the image bytes
in the pending map, emit `scan_result`. -/
def handleScan (env : Env) (st : ServerState) (data : JObj) :
    ServerState × List OutMsg :=
  match asString (lookupJ data "image") with
  | none => (st, [OutMsg.error "Invalid image data"])
  | some imageStr =>
    match asNumber (lookupJ data "totalWeight") with
    | none => (st, [OutMsg.error "Invalid weight value"])
    | some totalWeight =>
      match env.decodeBase64 imageStr with
      | none => (st, [OutMsg.error "Invalid image format"])
      | some imageData =>
        match env.processImage imageData with
        | none => (st, [OutMsg.error "Failed to process image"])
        | some draft =>
          let newId := uuidGen st.uuidCounter
          let info := { draft with
            totalWeight := totalWeight, id := newId,
            createdAt := env.now, updatedAt := env.now }
          let st' := { st with
            uuidCounter := st.uuidCounter + 1,
            tempImageData := storePut st.tempImageData newId imageData,
            issuedScanIds := newId :: st.issuedScanIds }
          (st', [OutMsg.scanResult info])

/-- The `handleGetHistory` handler (lines 203-263): fetch the 20 most
recent records, fold the totals loop over them, emit `history`. -/
def handleGetHistory (env : Env) (flags : RepoFlags) (st : ServerState) :
    ServerState × List OutMsg :=
  if flags.getRecentFails then (st, [OutMsg.error "Failed to retrieve history"])
  else
    let items := getRecentNutritionalInfo st.dbInfos 20
    let totals := historyLoop env.startOfDay env.startOfWeek
      (Totals.zero, Totals.zero) items
    (st, [OutMsg.history items totals.1 totals.2])

/-- The `handleConfirmScan` handler (lines 265-396): extract `id`, take the
pending image bytes out of the map, read the seven nutrient fields
defensively, persist the NutritionalInfo and then the scan record, emit
`scan_saved`. -/
def handleConfirmScan (env : Env) (flags : RepoFlags) (st : ServerState)
    (data : JObj) : ServerState × List OutMsg :=
  match lookupJ data "id" with
  | none => (st, [OutMsg.error "Missing nutrition info ID"])
  | some (JValue.jstr nutritionInfoID) =>
    match lookupJ st.tempImageData nutritionInfoID with
    | none => (st, [OutMsg.error "Image data not found"])
    | some imageData =>
      let st1 := { st with
        tempImageData := eraseKey st.tempImageData nutritionInfoID }
      let nutritionInfo : NutritionalInfo :=
        { id := nutritionInfoID,
          totalWeight := readNumD data "total_weight" 100,
          calories := readNumD data "calories" 0,
          protein := readNumD data "protein" 0,
          carbs := readNumD data "carbs" 0,
          fat := readNumD data "fat" 0,
          fiber := readNumD data "fiber" 0,
          sugar := readNumD data "sugar" 0,
          imagePath := "",
          createdAt := env.now, updatedAt := env.now }
      if flags.saveInfoFails then (st1, [OutMsg.error "Failed to save results"])
      else
        let st2 := { st1 with dbInfos := upsertInfo st1.dbInfos nutritionInfo }
        let scan : NutritionScan :=
          { id := uuidGen st2.uuidCounter, imageData := imageData,
            status := "completed", result := some nutritionInfo, error := "",
            createdAt := env.now, updatedAt := env.now }
        let st3 := { st2 with uuidCounter := st2.uuidCounter + 1 }
        if flags.saveScanFails then (st3, [OutMsg.error "Failed to save scan"])
        else ({ st3 with dbScans := upsertScan st3.dbScans scan },
          [OutMsg.scanSaved])
  | some _ => (st, [OutMsg.error "Invalid nutrition info ID format"])

/-- The dispatcher `handleWebSocketMessage` (lines 135-154): `type` must be
a string; `data` is extracted leniently (a missing or non-object `data`
behaves like a nil map); unknown types yield an error. -/
def handleWebSocketMessage (env : Env) (flags : RepoFlags) (st : ServerState)
    (message : Envelope) : ServerState × List OutMsg :=
  match lookupJ message "type" with
  | some (JTop.leaf (JValue.jstr messageType)) =>
    let data : JObj :=
      match lookupJ message "data" with
      | some (JTop.jobj fs) => fs
      | _ => []
    if messageType = "scan" then handleScan env st data
    else if messageType = "confirm_scan" then handleConfirmScan env flags st data
    else if messageType = "get_history" then handleGetHistory env flags st
    else (st, [OutMsg.error "Unknown message type"])
  | _ => (st, [OutMsg.error "Invalid message format"])

/-- One iteration of the read loop in `handleWebSocket` (lines 117-132):
`none` models a `json.Unmarshal` failure, which is logged and skipped with
`continue` (no response is written). -/
def processRaw (env : Env) (flags : RepoFlags) (st : ServerState) :
    Option Envelope → ServerState × List OutMsg
  | none => (st, [])
  | some message => handleWebSocketMessage env flags st message

/-- The connection read loop over a list of inbound frames: every frame is
processed and the loop never terminates early on a bad message. -/
def runLoop (env : Env) (flags : RepoFlags) (st : ServerState) :
    List (Option Envelope) → ServerState × List OutMsg
  | [] => (st, [])
  | raw :: rest =>
      let step := processRaw env flags st raw
      let tail := runLoop env flags step.1 rest
      (tail.1, step.2 ++ tail.2)

/-- Reachable server states: the initial state, closed under handling any
message in any environment. Interleavings of several connections are
arbitrary sequences of handler invocations against the shared state. -/
inductive Reachable : ServerState → Prop
  | init : Reachable initState
  | step (env : Env) (flags : RepoFlags) (message : Envelope)
      (st : ServerState) : Reachable st →
      Reachable (handleWebSocketMessage env flags st message).1

/-- Pointwise sum of two totals. -/
def Totals.plus (a b : Totals) : Totals :=
  ⟨a.calories + b.calories, a.protein + b.protein,
    a.carbs + b.carbs, a.fat + b.fat⟩

/-- Pointwise comparison of totals. -/
def Totals.le (a b : Totals) : Prop :=
  a.calories ≤ b.calories ∧ a.protein ≤ b.protein ∧
    a.carbs ≤ b.carbs ∧ a.fat ≤ b.fat

/-- Week-total characterization: sum of the four primary macros over the
records strictly after `startOfWeek`. -/
def sumWeek (startOfWeek : Int) : List NutritionalInfo → Totals
  | [] => Totals.zero
  | info :: rest =>
      if startOfWeek < info.createdAt then (sumWeek startOfWeek rest).add info
      else sumWeek startOfWeek rest

/-- Day-total characterization: sum over the records strictly after both
`startOfWeek` and `startOfDay` (the day filter is nested inside the week
filter). -/
def sumDay (startOfDay startOfWeek : Int) : List NutritionalInfo → Totals
  | [] => Totals.zero
  | info :: rest =>
      if startOfWeek < info.createdAt ∧ startOfDay < info.createdAt then
        (sumDay startOfDay startOfWeek rest).add info
      else sumDay startOfDay startOfWeek rest

/-- Records carrying non-negative primary macros (the data-model invariant:
all macro values are non-negative reals). -/
def NonnegMacros (info : NutritionalInfo) : Prop :=
  0 ≤ info.calories ∧ 0 ≤ info.protein ∧ 0 ≤ info.carbs ∧ 0 ≤ info.fat

/-- Identifier discipline invariant: every id ever issued in a
`scan_result`, every key of the pending map, and every durable scan id was
minted by `uuidGen` below the current counter, and durable scan ids are
disjoint from issued scan ids. -/
def IdsOk (st : ServerState) : Prop :=
  (∀ id ∈ st.issuedScanIds, ∃ k, k < st.uuidCounter ∧ id = uuidGen k) ∧
  (∀ p ∈ st.tempImageData, ∃ k, k < st.uuidCounter ∧ p.1 = uuidGen k) ∧
  (∀ sc ∈ st.dbScans, ∃ k, k < st.uuidCounter ∧ sc.id = uuidGen k) ∧
  (∀ sc ∈ st.dbScans, sc.id ∉ st.issuedScanIds)

/-- Concrete Analyzer draft used in witnesses (the apple-label example). -/
def cDraft : NutritionalInfo :=
  { id := "draft", totalWeight := 0, calories := 52, protein := 3,
    carbs := 14, fat := 2, fiber := 5, sugar := 10,
    imagePath := "", createdAt := 0, updatedAt := 0 }

/-- Concrete environment used in witnesses: decoding and analysis succeed. -/
def cEnv : Env :=
  { decodeBase64 := fun _ => some [1], processImage := fun _ => some cDraft,
    now := 5, startOfDay := 3, startOfWeek := 1 }

/-- Concrete repository flags: every repository call succeeds. -/
def cFlagsOk : RepoFlags :=
  { saveInfoFails := false, saveScanFails := false, getRecentFails := false }

/-- Concrete scan payload used in witnesses. -/
def cScanData : JObj :=
  [("image", JValue.jstr "aGk="), ("totalWeight", JValue.jnum 250)]

/-- Concrete scan envelope used in witnesses. -/
def cScanEnvelope : Envelope :=
  [("type", JTop.leaf (JValue.jstr "scan")), ("data", JTop.jobj cScanData)]

/-- The state after one successful scan on the fresh server: one pending
entry under the first minted id. -/
def cPending : ServerState :=
  { tempImageData := [(uuidGen 0, [1])], uuidCounter := 1,
    issuedScanIds := [uuidGen 0], dbInfos := [], dbScans := [] }

/-- Concrete confirm payload used in witnesses: supplies `id`, `calories`
and `total_weight`; the other nutrient fields are missing. -/
def cConfirmData : JObj :=
  [("id", JValue.jstr (uuidGen 0)), ("calories", JValue.jnum 52),
    ("total_weight", JValue.jnum 250)]

/-- Concrete confirm envelope used in witnesses. -/
def cConfirmEnvelope : Envelope :=
  [("type", JTop.leaf (JValue.jstr "confirm_scan")),
    ("data", JTop.jobj cConfirmData)]

/-- Record timestamped exactly at the week/day boundary, used to settle the
boundary-inclusion question. -/
def cBoundaryRec : NutritionalInfo :=
  { id := "r", totalWeight := 100, calories := 5, protein := 1, carbs := 2,
    fat := 3, fiber := 4, sugar := 6, imagePath := "", createdAt := 0,
    updatedAt := 0 }

/-- The unknown-type probe message `{type:"ping"}`. -/
def cPingEnvelope : Envelope :=
  [("type", JTop.leaf (JValue.jstr "ping"))]

/-- Scan payload with a negative `totalWeight`. -/
def cNegWeightData : JObj :=
  [("image", JValue.jstr "aGk="), ("totalWeight", JValue.jnum (-5))]

/-- Confirm payload whose pending id is one the server never issued. -/
def cUnknownConfirmData : JObj :=
  [("id", JValue.jstr "no-such-id")]

/-- The NutritionalInfo record `handleConfirmScan` builds from the client
payload (lines 312-370): every nutrient field is read defensively. -/
def confirmInfo (now : Int) (data : JObj) (id : String) : NutritionalInfo :=
  { id := id,
    totalWeight := readNumD data "total_weight" 100,
    calories := readNumD data "calories" 0,
    protein := readNumD data "protein" 0,
    carbs := readNumD data "carbs" 0,
    fat := readNumD data "fat" 0,
    fiber := readNumD data "fiber" 0,
    sugar := readNumD data "sugar" 0,
    imagePath := "",
    createdAt := now, updatedAt := now }

/-- The durable scan record `handleConfirmScan` builds (lines 379-387). -/
def confirmScanRec (now : Int) (counter : Nat) (bytes : Bytes)
    (info : NutritionalInfo) : NutritionScan :=
  { id := uuidGen counter, imageData := bytes, status := "completed",
    result := some info, error := "", createdAt := now, updatedAt := now }

/-- Flags where `SaveNutritionalInfo` fails. -/
def cFlagsInfoFail : RepoFlags :=
  { saveInfoFails := true, saveScanFails := false, getRecentFails := false }

/-- Flags where `SaveNutritionalInfo` succeeds but `SaveScan` fails. -/
def cFlagsScanFail : RepoFlags :=
  { saveInfoFails := false, saveScanFails := true, getRecentFails := false }

/-- Environment where base64 decoding fails. -/
def cEnvDecodeFail : Env :=
  { decodeBase64 := fun _ => none, processImage := fun _ => some cDraft,
    now := 5, startOfDay := 3, startOfWeek := 1 }

/-- Scan payload missing the weight field. -/
def cImageOnlyData : JObj :=
  [("image", JValue.jstr "x")]

/-- Scan payload with both fields present. -/
def cImageWeightData : JObj :=
  [("image", JValue.jstr "x"), ("totalWeight", JValue.jnum 1)]

/-- Key lookup after deleting that key always misses: a pending entry is
consumed at most once. -/
theorem lookupJ_eraseKey_self {α : Type} (l : List (String × α)) (k : String) :
    lookupJ (eraseKey l k) k = none := by
  induction l with
  | nil => simp [eraseKey, lookupJ]
  | cons q rest ih =>
      obtain ⟨qk, qv⟩ := q
      by_cases hq : qk = k
      · simp [eraseKey, hq, ih]
      · simp [eraseKey, lookupJ, hq, ih]

/-- Deleting a key only removes entries. -/
theorem mem_eraseKey {α : Type} {p : String × α} {l : List (String × α)}
    {k : String} (h : p ∈ eraseKey l k) : p ∈ l := by
  induction l with
  | nil => simp [eraseKey] at h
  | cons q rest ih =>
      obtain ⟨qk, qv⟩ := q
      by_cases hq : qk = k
      · simp only [eraseKey, if_pos hq] at h
        exact List.mem_cons_of_mem _ (ih h)
      · simp only [eraseKey, if_neg hq, List.mem_cons] at h
        rcases h with h | h
        · simp [h]
        · exact List.mem_cons_of_mem _ (ih h)

/-- Successful lookup exhibits a binding in the list. -/
theorem lookupJ_mem {α : Type} {l : List (String × α)} {k : String} {v : α}
    (h : lookupJ l k = some v) : (k, v) ∈ l := by
  induction l with
  | nil => simp [lookupJ] at h
  | cons q rest ih =>
      obtain ⟨qk, qv⟩ := q
      by_cases hq : qk = k
      · subst hq
        have h2 : some qv = some v := by simpa [lookupJ] using h
        simp only [Option.some.injEq] at h2
        subst h2
        exact List.mem_cons_self _ _
      · simp only [lookupJ, if_neg hq] at h
        exact List.mem_cons_of_mem _ (ih h)

/-- The uuid supply never repeats an identifier. -/
theorem uuidGen_injective : Function.Injective uuidGen := by
  intro a b h
  have h2 : List.replicate (a + 1) 'u' = List.replicate (b + 1) 'u' :=
    congrArg String.data h
  have h3 := congrArg List.length h2
  simp only [List.length_replicate] at h3
  omega

/-- Elements of an upserted scan table are the new row or old rows. -/
theorem mem_upsertScan {x s : NutritionScan} {l : List NutritionScan}
    (h : x ∈ upsertScan l s) : x = s ∨ x ∈ l := by
  unfold upsertScan at h
  by_cases hc : l.any (fun old => old.id = s.id)
  · rw [if_pos hc] at h
    rcases List.mem_map.1 h with ⟨old, hold, heq⟩
    by_cases h2 : old.id = s.id
    · left
      rw [← heq, if_pos h2]
    · right
      rw [← heq, if_neg h2]
      exact hold
  · rw [if_neg hc] at h
    rcases List.mem_append.1 h with h | h
    · right; exact h
    · left; simpa using h

/-- The upserted scan row is present in the upserted table. -/
theorem self_mem_upsertScan (s : NutritionScan) (l : List NutritionScan) :
    s ∈ upsertScan l s := by
  unfold upsertScan
  by_cases hc : l.any (fun old => old.id = s.id)
  · rw [if_pos hc]
    rcases List.any_eq_true.1 hc with ⟨old, hold, hid⟩
    have hmem : (if old.id = s.id then s else old) ∈
        List.map (fun o => if o.id = s.id then s else o) l :=
      List.mem_map_of_mem (fun o => if o.id = s.id then s else o) hold
    rwa [if_pos (of_decide_eq_true hid)] at hmem
  · rw [if_neg hc]
    exact List.mem_append_right _ (List.mem_cons_self _ _)

/-- After upserting a nutrition row, some row in the table carries exactly
the upserted id, weight and nutrient values (only `createdAt` may be kept
from a previously existing row with the same id). -/
theorem upsertInfo_exists (l : List NutritionalInfo) (info : NutritionalInfo) :
    ∃ r ∈ upsertInfo l info, r.id = info.id ∧
      r.totalWeight = info.totalWeight ∧ r.calories = info.calories ∧
      r.protein = info.protein ∧ r.carbs = info.carbs ∧ r.fat = info.fat ∧
      r.fiber = info.fiber ∧ r.sugar = info.sugar := by
  unfold upsertInfo
  by_cases hc : l.any (fun old => old.id = info.id)
  · rw [if_pos hc]
    rcases List.any_eq_true.1 hc with ⟨old, hold, hid⟩
    have hmem : (if old.id = info.id then
        { info with createdAt := old.createdAt } else old) ∈
        List.map (fun o => if o.id = info.id then
          { info with createdAt := o.createdAt } else o) l :=
      List.mem_map_of_mem
        (fun o => if o.id = info.id then
          { info with createdAt := o.createdAt } else o) hold
    rw [if_pos (of_decide_eq_true hid)] at hmem
    exact ⟨{ info with createdAt := old.createdAt }, hmem, by simp⟩
  · rw [if_neg hc]
    exact ⟨info, List.mem_append_right _ (List.mem_cons_self _ _), by simp⟩

/-- Membership in a descending insertion. -/
theorem mem_insertByCreatedDesc {x info : NutritionalInfo}
    {l : List NutritionalInfo} :
    x ∈ insertByCreatedDesc info l ↔ x = info ∨ x ∈ l := by
  induction l with
  | nil => simp [insertByCreatedDesc]
  | cons y ys ih =>
      by_cases hy : y.createdAt ≤ info.createdAt
      · simp [insertByCreatedDesc, hy]
      · simp only [insertByCreatedDesc, if_neg hy, List.mem_cons, ih]
        tauto

/-- Sorting by creation time does not change membership. -/
theorem mem_sortByCreatedDesc {x : NutritionalInfo}
    {l : List NutritionalInfo} : x ∈ sortByCreatedDesc l ↔ x ∈ l := by
  induction l with
  | nil => simp [sortByCreatedDesc]
  | cons y ys ih =>
      simp [sortByCreatedDesc, mem_insertByCreatedDesc, ih]

/-- Length of a descending insertion. -/
theorem length_insertByCreatedDesc (info : NutritionalInfo)
    (l : List NutritionalInfo) :
    (insertByCreatedDesc info l).length = l.length + 1 := by
  induction l with
  | nil => simp [insertByCreatedDesc]
  | cons y ys ih =>
      by_cases hy : y.createdAt ≤ info.createdAt
      · simp [insertByCreatedDesc, hy]
      · simp [insertByCreatedDesc, hy, ih]

/-- Sorting preserves length. -/
theorem length_sortByCreatedDesc (l : List NutritionalInfo) :
    (sortByCreatedDesc l).length = l.length := by
  induction l with
  | nil => rfl
  | cons y ys ih => simp [sortByCreatedDesc, length_insertByCreatedDesc, ih]

/-- When the table holds at most `limit` rows, every row is returned by
`GetRecentNutritionalInfo`. -/
theorem mem_getRecentNutritionalInfo {x : NutritionalInfo}
    {l : List NutritionalInfo} {limit : Nat} (hlen : l.length ≤ limit)
    (hx : x ∈ l) : x ∈ getRecentNutritionalInfo l limit := by
  unfold getRecentNutritionalInfo
  rw [List.take_of_length_le (by rw [length_sortByCreatedDesc]; exact hlen)]
  exact mem_sortByCreatedDesc.2 hx

/-- Adding the zero total is the identity. -/
theorem Totals.plus_zero (t : Totals) : Totals.plus t Totals.zero = t := by
  cases t
  simp [Totals.plus, Totals.zero]

/-- Moving one record's contribution across a pointwise sum. -/
theorem Totals.plus_add (a b : Totals) (info : NutritionalInfo) :
    Totals.plus (a.add info) b = Totals.plus a (b.add info) := by
  cases a
  cases b
  simp only [Totals.plus, Totals.add, Totals.mk.injEq]
  refine ⟨?_, ?_, ?_, ?_⟩ <;> ring

/-- The accumulation loop of `handleGetHistory` computes, for any starting
accumulator, the filtered sums `sumDay`/`sumWeek` on top of it. -/
theorem historyLoop_eq (startOfDay startOfWeek : Int)
    (l : List NutritionalInfo) :
    ∀ acc : Totals × Totals,
      historyLoop startOfDay startOfWeek acc l =
        (Totals.plus acc.1 (sumDay startOfDay startOfWeek l),
          Totals.plus acc.2 (sumWeek startOfWeek l)) := by
  induction l with
  | nil =>
      intro acc
      simp [historyLoop, sumDay, sumWeek, Totals.plus_zero]
  | cons i rest ih =>
      intro acc
      by_cases hw : startOfWeek < i.createdAt
      · by_cases hd : startOfDay < i.createdAt
        · simp only [historyLoop, if_pos hw, if_pos hd, sumDay, sumWeek,
            if_pos (And.intro hw hd)]
          rw [ih]
          rw [Totals.plus_add, Totals.plus_add]
        · have hnd : ¬(startOfWeek < i.createdAt ∧ startOfDay < i.createdAt) :=
            fun hcon => hd hcon.2
          simp only [historyLoop, if_pos hw, if_neg hd, sumDay, sumWeek,
            if_neg hnd]
          rw [ih]
          rw [Totals.plus_add]
      · have hnd : ¬(startOfWeek < i.createdAt ∧ startOfDay < i.createdAt) :=
          fun hcon => hw hcon.1
        simp only [historyLoop, if_neg hw, sumDay, sumWeek, if_neg hnd]
        exact ih acc

/-- The totals of `handleGetHistory` are exactly the filtered macro sums. -/
theorem historyTotals_eq (startOfDay startOfWeek : Int)
    (l : List NutritionalInfo) :
    historyTotals startOfDay startOfWeek l =
      (sumDay startOfDay startOfWeek l, sumWeek startOfWeek l) := by
  unfold historyTotals
  rw [historyLoop_eq]
  have hz : ∀ t : Totals, Totals.plus Totals.zero t = t := by
    intro t
    cases t
    simp [Totals.plus, Totals.zero]
  rw [hz, hz]


theorem idsOk_handleScan (env : Env) (st : ServerState) (data : JObj)
    (h : IdsOk st) : IdsOk (handleScan env st data).1 := by
  unfold handleScan
  split
  · exact h
  split
  · exact h
  split
  · exact h
  split
  · exact h
  next s w bytes draft heq =>
  obtain ⟨hIss, hTemp, hScans, hDisj⟩ := h
  refine ⟨?_, ?_, ?_, ?_⟩
  · intro id hid
    rcases List.mem_cons.1 hid with rfl | hid
    · exact ⟨st.uuidCounter, Nat.lt_succ_self _, rfl⟩
    · rcases hIss id hid with ⟨k, hk, hke⟩
      exact ⟨k, Nat.lt_succ_of_lt hk, hke⟩
  · intro p hp
    rcases List.mem_cons.1 hp with rfl | hp
    · exact ⟨st.uuidCounter, Nat.lt_succ_self _, rfl⟩
    · rcases hTemp p (mem_eraseKey hp) with ⟨k, hk, hke⟩
      exact ⟨k, Nat.lt_succ_of_lt hk, hke⟩
  · intro sc hsc
    rcases hScans sc hsc with ⟨k, hk, hke⟩
    exact ⟨k, Nat.lt_succ_of_lt hk, hke⟩
  · intro sc hsc hmem
    rcases List.mem_cons.1 hmem with hEq | hmem
    · rcases hScans sc hsc with ⟨k, hk, hke⟩
      have hkc := uuidGen_injective (hke.symm.trans hEq)
      omega
    · exact hDisj sc hsc hmem

theorem idsOk_handleConfirmScan (env : Env) (flags : RepoFlags)
    (st : ServerState) (data : JObj) (h : IdsOk st) :
    IdsOk (handleConfirmScan env flags st data).1 := by
  unfold handleConfirmScan
  split
  · exact h
  · split
    · exact h
    next id imageData heq2 =>
    obtain ⟨hIss, hTemp, hScans, hDisj⟩ := h
    split
    · exact ⟨hIss, fun p hp => hTemp p (mem_eraseKey hp), hScans, hDisj⟩
    · split
      · refine ⟨?_, ?_, ?_, ?_⟩
        · intro i hi
          rcases hIss i hi with ⟨k, hk, hke⟩
          exact ⟨k, Nat.lt_succ_of_lt hk, hke⟩
        · intro p hp
          rcases hTemp p (mem_eraseKey hp) with ⟨k, hk, hke⟩
          exact ⟨k, Nat.lt_succ_of_lt hk, hke⟩
        · intro sc hsc
          rcases hScans sc hsc with ⟨k, hk, hke⟩
          exact ⟨k, Nat.lt_succ_of_lt hk, hke⟩
        · exact hDisj
      · refine ⟨?_, ?_, ?_, ?_⟩
        · intro i hi
          rcases hIss i hi with ⟨k, hk, hke⟩
          exact ⟨k, Nat.lt_succ_of_lt hk, hke⟩
        · intro p hp
          rcases hTemp p (mem_eraseKey hp) with ⟨k, hk, hke⟩
          exact ⟨k, Nat.lt_succ_of_lt hk, hke⟩
        · intro sc hsc
          rcases mem_upsertScan hsc with rfl | hsc
          · exact ⟨st.uuidCounter, Nat.lt_succ_self _, rfl⟩
          · rcases hScans sc hsc with ⟨k, hk, hke⟩
            exact ⟨k, Nat.lt_succ_of_lt hk, hke⟩
        · intro sc hsc hmem
          rcases mem_upsertScan hsc with rfl | hsc
          · rcases hIss _ hmem with ⟨k, hk, hke⟩
            have hkc : k = st.uuidCounter := uuidGen_injective hke.symm
            omega
          · exact hDisj sc hsc hmem
  · exact h

theorem idsOk_handleGetHistory (env : Env) (flags : RepoFlags)
    (st : ServerState) (h : IdsOk st) :
    IdsOk (handleGetHistory env flags st).1 := by
  unfold handleGetHistory
  split
  · exact h
  · exact h

theorem idsOk_handleWebSocketMessage (env : Env) (flags : RepoFlags)
    (st : ServerState) (message : Envelope) (h : IdsOk st) :
    IdsOk (handleWebSocketMessage env flags st message).1 := by
  unfold handleWebSocketMessage
  split
  · split
    · split
      · exact idsOk_handleScan _ _ _ h
      · split
        · exact idsOk_handleConfirmScan _ _ _ _ h
        · split
          · exact idsOk_handleGetHistory _ _ _ h
          · exact h
    · split
      · exact idsOk_handleScan _ _ _ h
      · split
        · exact idsOk_handleConfirmScan _ _ _ _ h
        · split
          · exact idsOk_handleGetHistory _ _ _ h
          · exact h
  · exact h

theorem reachable_idsOk {st : ServerState} (h : Reachable st) : IdsOk st := by
  induction h with
  | init =>
      refine ⟨?_, ?_, ?_, ?_⟩ <;> intro x hx <;> simp [initState] at hx
  | step env flags message st' _ ih =>
      exact idsOk_handleWebSocketMessage env flags st' message ih

/-- Equation for `handleScan` on the all-success path. -/
theorem handleScan_success (env : Env) (st : ServerState) (data : JObj)
    (s : String) (w : ℚ) (bytes : Bytes) (draft : NutritionalInfo)
    (h1 : asString (lookupJ data "image") = some s)
    (h2 : asNumber (lookupJ data "totalWeight") = some w)
    (h3 : env.decodeBase64 s = some bytes)
    (h4 : env.processImage bytes = some draft) :
    handleScan env st data =
      ({ st with
          uuidCounter := st.uuidCounter + 1,
          tempImageData :=
            storePut st.tempImageData (uuidGen st.uuidCounter) bytes,
          issuedScanIds := uuidGen st.uuidCounter :: st.issuedScanIds },
        [OutMsg.scanResult { draft with
          id := uuidGen st.uuidCounter,
          totalWeight := w, createdAt := env.now, updatedAt := env.now }]) := by
  simp only [handleScan, h1, h2, h3, h4]

/-- Equation for `handleScan` when the image field is missing or not a
string. -/
theorem handleScan_invalid_image (env : Env) (st : ServerState) (data : JObj)
    (h1 : asString (lookupJ data "image") = none) :
    handleScan env st data = (st, [OutMsg.error "Invalid image data"]) := by
  simp only [handleScan, h1]

/-- Equation for `handleScan` when the weight field is missing or not a
number. -/
theorem handleScan_invalid_weight (env : Env) (st : ServerState) (data : JObj)
    (s : String) (h1 : asString (lookupJ data "image") = some s)
    (h2 : asNumber (lookupJ data "totalWeight") = none) :
    handleScan env st data = (st, [OutMsg.error "Invalid weight value"]) := by
  simp only [handleScan, h1, h2]

/-- Equation for `handleScan` when base64 decoding fails. -/
theorem handleScan_decode_failure (env : Env) (st : ServerState) (data : JObj)
    (s : String) (w : ℚ) (h1 : asString (lookupJ data "image") = some s)
    (h2 : asNumber (lookupJ data "totalWeight") = some w)
    (h3 : env.decodeBase64 s = none) :
    handleScan env st data = (st, [OutMsg.error "Invalid image format"]) := by
  simp only [handleScan, h1, h2, h3]

/-- Equation for `handleScan` when the Analyzer fails. -/
theorem handleScan_analyzer_failure (env : Env) (st : ServerState)
    (data : JObj) (s : String) (w : ℚ) (bytes : Bytes)
    (h1 : asString (lookupJ data "image") = some s)
    (h2 : asNumber (lookupJ data "totalWeight") = some w)
    (h3 : env.decodeBase64 s = some bytes)
    (h4 : env.processImage bytes = none) :
    handleScan env st data = (st, [OutMsg.error "Failed to process image"]) := by
  simp only [handleScan, h1, h2, h3, h4]

/-- Equation for `handleConfirmScan` when the pending lookup misses. -/
theorem handleConfirmScan_miss (env : Env) (flags : RepoFlags)
    (st : ServerState) (data : JObj) (id : String)
    (hid : lookupJ data "id" = some (JValue.jstr id))
    (hpend : lookupJ st.tempImageData id = none) :
    handleConfirmScan env flags st data =
      (st, [OutMsg.error "Image data not found"]) := by
  simp only [handleConfirmScan, hid, hpend]

/-- Equation for `handleConfirmScan` on a pending hit: the pending entry is
removed first, then the two repository writes happen in order, each failing
point returning an error without restoring the entry. -/
theorem handleConfirmScan_hit (env : Env) (flags : RepoFlags)
    (st : ServerState) (data : JObj) (id : String) (bytes : Bytes)
    (hid : lookupJ data "id" = some (JValue.jstr id))
    (hpend : lookupJ st.tempImageData id = some bytes) :
    handleConfirmScan env flags st data =
      (if flags.saveInfoFails then
        ({ st with tempImageData := eraseKey st.tempImageData id },
          [OutMsg.error "Failed to save results"])
      else if flags.saveScanFails then
        ({ st with
            tempImageData := eraseKey st.tempImageData id,
            uuidCounter := st.uuidCounter + 1,
            dbInfos := upsertInfo st.dbInfos (confirmInfo env.now data id) },
          [OutMsg.error "Failed to save scan"])
      else
        ({ st with
            tempImageData := eraseKey st.tempImageData id,
            uuidCounter := st.uuidCounter + 1,
            dbInfos := upsertInfo st.dbInfos (confirmInfo env.now data id),
            dbScans := upsertScan st.dbScans
              (confirmScanRec env.now st.uuidCounter bytes
                (confirmInfo env.now data id)) },
          [OutMsg.scanSaved])) := by
  simp only [handleConfirmScan, hid, hpend, confirmInfo, confirmScanRec]

/-- Upserting grows the table by at most one row. -/
theorem length_upsertInfo (l : List NutritionalInfo)
    (info : NutritionalInfo) :
    (upsertInfo l info).length ≤ l.length + 1 := by
  unfold upsertInfo
  split
  · simp
  · simp

/-- C1: a `confirm_scan` whose id has no pending entry yields an error and
changes nothing (no `scan_saved`, no repository write); a pending entry is
consumed at most once: confirming the same id twice in sequence, the first
succeeds when the Repository succeeds and the second always misses. -/
theorem confirm_unknown_id_errors (env env2 : Env) (flags flags2 : RepoFlags)
    (st : ServerState) (data : JObj) (id : String) :
    (lookupJ data "id" = some (JValue.jstr id) →
      lookupJ st.tempImageData id = none →
      handleConfirmScan env flags st data =
        (st, [OutMsg.error "Image data not found"])) ∧
    (∀ bytes : Bytes, lookupJ data "id" = some (JValue.jstr id) →
      lookupJ st.tempImageData id = some bytes →
      flags.saveInfoFails = false → flags.saveScanFails = false →
      (handleConfirmScan env flags st data).2 = [OutMsg.scanSaved] ∧
      handleConfirmScan env2 flags2
          (handleConfirmScan env flags st data).1 data =
        ((handleConfirmScan env flags st data).1,
          [OutMsg.error "Image data not found"])) := by
  constructor
  · intro hid hmiss
    exact handleConfirmScan_miss env flags st data id hid hmiss
  · intro bytes hid hpend hf1 hf2
    rw [handleConfirmScan_hit env flags st data id bytes hid hpend]
    simp only [hf1, hf2, Bool.false_eq_true, if_false]
    refine ⟨by trivial, ?_⟩
    exact handleConfirmScan_miss env2 flags2 _ data id hid
      (lookupJ_eraseKey_self st.tempImageData id)

/-- Witness for C1 at concrete inputs: an id the server never issued
always errors, and a double confirm of an issued id succeeds once then
misses. -/
theorem confirm_unknown_id_errors_witness :
    handleConfirmScan cEnv cFlagsOk initState cUnknownConfirmData =
      (initState, [OutMsg.error "Image data not found"]) ∧
    (handleConfirmScan cEnv cFlagsOk cPending cConfirmData).2 =
      [OutMsg.scanSaved] ∧
    handleConfirmScan cEnv cFlagsOk
        (handleConfirmScan cEnv cFlagsOk cPending cConfirmData).1
        cConfirmData =
      ((handleConfirmScan cEnv cFlagsOk cPending cConfirmData).1,
        [OutMsg.error "Image data not found"]) := by
  refine ⟨(confirm_unknown_id_errors cEnv cEnv cFlagsOk cFlagsOk initState
    cUnknownConfirmData "no-such-id").1 (by decide) (by decide), ?_, ?_⟩
  · exact ((confirm_unknown_id_errors cEnv cEnv cFlagsOk cFlagsOk cPending
      cConfirmData (uuidGen 0)).2 [1] (by decide) (by decide) rfl rfl).1
  · exact ((confirm_unknown_id_errors cEnv cEnv cFlagsOk cFlagsOk cPending
      cConfirmData (uuidGen 0)).2 [1] (by decide) (by decide) rfl rfl).2

/-- C3: when a pending id is confirmed but a Repository save fails, an
error is emitted and the pending entry is not restored: a repeated
confirm of the same id misses. -/
theorem confirm_save_failure_no_restore (env env2 : Env)
    (flags flags2 : RepoFlags) (st : ServerState) (data : JObj)
    (id : String) (bytes : Bytes)
    (hid : lookupJ data "id" = some (JValue.jstr id))
    (hpend : lookupJ st.tempImageData id = some bytes)
    (hfail : flags.saveInfoFails = true ∨ flags.saveScanFails = true) :
    (∃ m, (handleConfirmScan env flags st data).2 = [OutMsg.error m]) ∧
    lookupJ (handleConfirmScan env flags st data).1.tempImageData id =
      none ∧
    handleConfirmScan env2 flags2
        (handleConfirmScan env flags st data).1 data =
      ((handleConfirmScan env flags st data).1,
        [OutMsg.error "Image data not found"]) := by
  rw [handleConfirmScan_hit env flags st data id bytes hid hpend]
  by_cases hf1 : flags.saveInfoFails = true
  · simp only [hf1, if_true]
    refine ⟨⟨"Failed to save results", rfl⟩, ?_, ?_⟩
    · exact lookupJ_eraseKey_self st.tempImageData id
    · exact handleConfirmScan_miss env2 flags2 _ data id hid
        (lookupJ_eraseKey_self st.tempImageData id)
  · have hf2 : flags.saveScanFails = true := by
      rcases hfail with h | h
      · exact absurd h hf1
      · exact h
    simp only [hf1, hf2, Bool.false_eq_true, if_false, if_true]
    refine ⟨⟨"Failed to save scan", rfl⟩, ?_, ?_⟩
    · exact lookupJ_eraseKey_self st.tempImageData id
    · exact handleConfirmScan_miss env2 flags2 _ data id hid
        (lookupJ_eraseKey_self st.tempImageData id)

/-- Witness for C3: both failure points, at concrete inputs. -/
theorem confirm_save_failure_no_restore_witness :
    ((∃ m, (handleConfirmScan cEnv cFlagsInfoFail cPending cConfirmData).2 =
      [OutMsg.error m]) ∧
    lookupJ (handleConfirmScan cEnv cFlagsInfoFail cPending
      cConfirmData).1.tempImageData (uuidGen 0) = none ∧
    handleConfirmScan cEnv cFlagsOk
        (handleConfirmScan cEnv cFlagsInfoFail cPending cConfirmData).1
        cConfirmData =
      ((handleConfirmScan cEnv cFlagsInfoFail cPending cConfirmData).1,
        [OutMsg.error "Image data not found"])) ∧
    ((∃ m, (handleConfirmScan cEnv cFlagsScanFail cPending cConfirmData).2 =
      [OutMsg.error m]) ∧
    lookupJ (handleConfirmScan cEnv cFlagsScanFail cPending
      cConfirmData).1.tempImageData (uuidGen 0) = none ∧
    handleConfirmScan cEnv cFlagsOk
        (handleConfirmScan cEnv cFlagsScanFail cPending cConfirmData).1
        cConfirmData =
      ((handleConfirmScan cEnv cFlagsScanFail cPending cConfirmData).1,
        [OutMsg.error "Image data not found"])) := by
  constructor
  · exact confirm_save_failure_no_restore cEnv cEnv cFlagsInfoFail cFlagsOk
      cPending cConfirmData (uuidGen 0) [1] (by decide) (by decide)
      (Or.inl rfl)
  · exact confirm_save_failure_no_restore cEnv cEnv cFlagsScanFail cFlagsOk
      cPending cConfirmData (uuidGen 0) [1] (by decide) (by decide)
      (Or.inr rfl)

/-- C2: a scan with a well-typed payload whose decoding and analysis
succeed emits exactly one `scan_result`; its id is freshly minted (never
previously issued, replacing the id the Analyzer returned), its totalWeight
is the client's submitted value, the nutrient values are the Analyzer's,
and a matching pending entry is stored under the new id. -/
theorem scan_fresh_result (env : Env) (st : ServerState) (data : JObj)
    (s : String) (w : ℚ) (bytes : Bytes) (draft : NutritionalInfo)
    (hreach : Reachable st)
    (h1 : asString (lookupJ data "image") = some s)
    (h2 : asNumber (lookupJ data "totalWeight") = some w)
    (hw : 0 < w)
    (h3 : env.decodeBase64 s = some bytes)
    (h4 : env.processImage bytes = some draft) :
    ∃ info : NutritionalInfo,
      (handleScan env st data).2 = [OutMsg.scanResult info] ∧
      info.totalWeight = w ∧
      info.calories = draft.calories ∧ info.protein = draft.protein ∧
      info.carbs = draft.carbs ∧ info.fat = draft.fat ∧
      info.fiber = draft.fiber ∧ info.sugar = draft.sugar ∧
      info.id ∉ st.issuedScanIds ∧
      info.id ∈ (handleScan env st data).1.issuedScanIds ∧
      lookupJ (handleScan env st data).1.tempImageData info.id =
        some bytes := by
  rw [handleScan_success env st data s w bytes draft h1 h2 h3 h4]
  refine ⟨{ draft with
    id := uuidGen st.uuidCounter, totalWeight := w,
    createdAt := env.now, updatedAt := env.now },
    rfl, rfl, rfl, rfl, rfl, rfl, rfl, rfl, ?_, ?_, ?_⟩
  · intro hmem
    obtain ⟨hIss, _, _, _⟩ := reachable_idsOk hreach
    rcases hIss _ hmem with ⟨k, hk, hke⟩
    have h5 : uuidGen st.uuidCounter = uuidGen k := hke
    have h6 := uuidGen_injective h5
    omega
  · exact List.mem_cons_self _ _
  · simp [storePut, lookupJ]

/-- Witness for C2 on the fresh server with the concrete scan payload. -/
theorem scan_fresh_result_witness :
    ∃ info : NutritionalInfo,
      (handleScan cEnv initState cScanData).2 = [OutMsg.scanResult info] ∧
      info.totalWeight = 250 ∧
      info.calories = cDraft.calories ∧ info.protein = cDraft.protein ∧
      info.carbs = cDraft.carbs ∧ info.fat = cDraft.fat ∧
      info.fiber = cDraft.fiber ∧ info.sugar = cDraft.sugar ∧
      info.id ∉ initState.issuedScanIds ∧
      info.id ∈ (handleScan cEnv initState cScanData).1.issuedScanIds ∧
      lookupJ (handleScan cEnv initState cScanData).1.tempImageData
        info.id = some [1] :=
  scan_fresh_result cEnv initState cScanData "aGk=" 250 [1] cDraft
    Reachable.init (by decide) (by decide) (by decide) rfl rfl

/-- C10: durable scan-record discipline. On every reachable state no
durable scan record's id equals a scan id ever issued in a `scan_result`;
and every successful confirm persists a scan record with a freshly minted
id distinct from the confirmed scanID, status "completed", empty error,
the original image bytes from analyze time, and the confirmed id on the
embedded NutritionalInfo. -/
theorem confirmed_scan_record_invariants :
    (∀ st : ServerState, Reachable st →
      ∀ sc ∈ st.dbScans, sc.id ∉ st.issuedScanIds) ∧
    (∀ (env : Env) (flags : RepoFlags) (st : ServerState) (data : JObj)
      (id : String) (bytes : Bytes), Reachable st →
      lookupJ data "id" = some (JValue.jstr id) →
      lookupJ st.tempImageData id = some bytes →
      flags.saveInfoFails = false → flags.saveScanFails = false →
      (handleConfirmScan env flags st data).2 = [OutMsg.scanSaved] ∧
      ∃ sc ∈ (handleConfirmScan env flags st data).1.dbScans,
        sc.id ≠ id ∧ sc.status = "completed" ∧ sc.error = "" ∧
        sc.imageData = bytes ∧
        ∃ info, sc.result = some info ∧ info.id = id) := by
  constructor
  · intro st hst sc hsc
    exact (reachable_idsOk hst).2.2.2 sc hsc
  · intro env flags st data id bytes hst hid hpend hf1 hf2
    rw [handleConfirmScan_hit env flags st data id bytes hid hpend]
    simp only [hf1, hf2, Bool.false_eq_true, if_false]
    refine ⟨by trivial,
      confirmScanRec env.now st.uuidCounter bytes (confirmInfo env.now data id),
      self_mem_upsertScan _ _, ?_, rfl, rfl, rfl,
      ⟨confirmInfo env.now data id, rfl, rfl⟩⟩
    intro hEq
    obtain ⟨_, hTemp, _, _⟩ := reachable_idsOk hst
    rcases hTemp (id, bytes) (lookupJ_mem hpend) with ⟨k, hk, hke⟩
    have h5 : uuidGen st.uuidCounter = uuidGen k := by
      have h6 : uuidGen st.uuidCounter = id := hEq
      have h7 : id = uuidGen k := hke
      exact h6.trans h7
    have h8 := uuidGen_injective h5
    omega

/-- Witness for C10 at a concrete reachable state holding one pending
scan. -/
theorem confirmed_scan_record_invariants_witness :
    (handleConfirmScan cEnv cFlagsOk cPending cConfirmData).2 =
      [OutMsg.scanSaved] ∧
    ∃ sc ∈ (handleConfirmScan cEnv cFlagsOk cPending cConfirmData).1.dbScans,
      sc.id ≠ uuidGen 0 ∧ sc.status = "completed" ∧ sc.error = "" ∧
      sc.imageData = [1] ∧
      ∃ info, sc.result = some info ∧ info.id = uuidGen 0 := by
  have hreach : Reachable cPending := by
    have h0 := Reachable.step cEnv cFlagsOk cScanEnvelope initState
      Reachable.init
    have he : (handleWebSocketMessage cEnv cFlagsOk initState
        cScanEnvelope).1 = cPending := by decide
    exact he ▸ h0
  exact confirmed_scan_record_invariants.2 cEnv cFlagsOk cPending
    cConfirmData (uuidGen 0) [1] hreach (by decide) (by decide) rfl rfl

/-- Counterexample for C4: a record timestamped exactly at `startOfWeek`
(here both boundaries are 0 and the record's createdAt is 0) contributes
nothing to either total, although its calories are 5 — the code uses the
strict `After`, so the boundary record does not count. -/
theorem week_boundary_excluded_cex :
    cBoundaryRec.createdAt = 0 ∧ cBoundaryRec.calories = 5 ∧
    (historyTotals 0 0 [cBoundaryRec]).2 = Totals.zero ∧
    (historyTotals 0 0 [cBoundaryRec]).1 = Totals.zero := by
  decide

/-- C4 amended: a record counts toward the week total exactly when its
createdAt is strictly after `startOfWeek` (a record exactly at or before
the boundary does not count), and toward the day total exactly when it is
strictly after both boundaries. -/
theorem history_boundary_strict (startOfDay startOfWeek : Int)
    (info : NutritionalInfo) (rest : List NutritionalInfo) :
    (historyTotals startOfDay startOfWeek (info :: rest)).2 =
      (if startOfWeek < info.createdAt then
        (historyTotals startOfDay startOfWeek rest).2.add info
      else (historyTotals startOfDay startOfWeek rest).2) ∧
    (historyTotals startOfDay startOfWeek (info :: rest)).1 =
      (if startOfWeek < info.createdAt ∧ startOfDay < info.createdAt then
        (historyTotals startOfDay startOfWeek rest).1.add info
      else (historyTotals startOfDay startOfWeek rest).1) := by
  simp only [historyTotals_eq]
  exact ⟨rfl, rfl⟩

/-- C5: on a pending hit every nutrient field of the confirm payload is
read independently and defensively — a field present as a number is used,
a missing or wrong-typed field degrades to its default (100 for
total_weight, 0 for the macros) — and the persisted record carries exactly
those values; the request does not fail. -/
theorem confirm_fields_defensive (env : Env) (flags : RepoFlags)
    (st : ServerState) (data : JObj) (id : String) (bytes : Bytes)
    (hid : lookupJ data "id" = some (JValue.jstr id))
    (hpend : lookupJ st.tempImageData id = some bytes)
    (hf1 : flags.saveInfoFails = false)
    (hf2 : flags.saveScanFails = false) :
    (handleConfirmScan env flags st data).2 = [OutMsg.scanSaved] ∧
    (∃ r ∈ (handleConfirmScan env flags st data).1.dbInfos,
      r.id = id ∧
      r.totalWeight = readNumD data "total_weight" 100 ∧
      r.calories = readNumD data "calories" 0 ∧
      r.protein = readNumD data "protein" 0 ∧
      r.carbs = readNumD data "carbs" 0 ∧
      r.fat = readNumD data "fat" 0 ∧
      r.fiber = readNumD data "fiber" 0 ∧
      r.sugar = readNumD data "sugar" 0) ∧
    (∀ (k : String) (q dflt : ℚ),
      lookupJ data k = some (JValue.jnum q) → readNumD data k dflt = q) ∧
    (∀ (k : String) (dflt : ℚ),
      asNumber (lookupJ data k) = none → readNumD data k dflt = dflt) := by
  rw [handleConfirmScan_hit env flags st data id bytes hid hpend]
  simp only [hf1, hf2, Bool.false_eq_true, if_false]
  refine ⟨by trivial, ?_, ?_, ?_⟩
  · obtain ⟨r, hr, hprops⟩ :=
      upsertInfo_exists st.dbInfos (confirmInfo env.now data id)
    exact ⟨r, hr, hprops.1, hprops.2.1, hprops.2.2.1, hprops.2.2.2.1,
      hprops.2.2.2.2.1, hprops.2.2.2.2.2.1, hprops.2.2.2.2.2.2.1,
      hprops.2.2.2.2.2.2.2⟩
  · intro k q dflt hk
    simp [readNumD, asNumber, hk]
  · intro k dflt hk
    simp [readNumD, hk]

/-- Witness for C5: confirming with only `calories` and `total_weight`
supplied persists those two values and the defaults elsewhere. -/
theorem confirm_fields_defensive_witness :
    (handleConfirmScan cEnv cFlagsOk cPending cConfirmData).2 =
      [OutMsg.scanSaved] ∧
    (∃ r ∈ (handleConfirmScan cEnv cFlagsOk cPending
        cConfirmData).1.dbInfos,
      r.id = uuidGen 0 ∧
      r.totalWeight = readNumD cConfirmData "total_weight" 100 ∧
      r.calories = readNumD cConfirmData "calories" 0 ∧
      r.protein = readNumD cConfirmData "protein" 0 ∧
      r.carbs = readNumD cConfirmData "carbs" 0 ∧
      r.fat = readNumD cConfirmData "fat" 0 ∧
      r.fiber = readNumD cConfirmData "fiber" 0 ∧
      r.sugar = readNumD cConfirmData "sugar" 0) ∧
    (∀ (k : String) (q dflt : ℚ),
      lookupJ cConfirmData k = some (JValue.jnum q) →
        readNumD cConfirmData k dflt = q) ∧
    (∀ (k : String) (dflt : ℚ),
      asNumber (lookupJ cConfirmData k) = none →
        readNumD cConfirmData k dflt = dflt) :=
  confirm_fields_defensive cEnv cFlagsOk cPending cConfirmData (uuidGen 0)
    [1] (by decide) (by decide) rfl rfl

/-- Filtered day sums never exceed filtered week sums on records with
non-negative macros. -/
theorem sumDay_le_sumWeek (startOfDay startOfWeek : Int)
    (l : List NutritionalInfo) (hnn : ∀ i ∈ l, NonnegMacros i) :
    Totals.le (sumDay startOfDay startOfWeek l) (sumWeek startOfWeek l) := by
  induction l with
  | nil => exact ⟨le_refl _, le_refl _, le_refl _, le_refl _⟩
  | cons i rest ih =>
      have hni : NonnegMacros i := hnn i (List.mem_cons_self _ _)
      have hrest : ∀ j ∈ rest, NonnegMacros j :=
        fun j hj => hnn j (List.mem_cons_of_mem _ hj)
      obtain ⟨l1, l2, l3, l4⟩ := ih hrest
      obtain ⟨n1, n2, n3, n4⟩ := hni
      by_cases hw : startOfWeek < i.createdAt
      · by_cases hd : startOfDay < i.createdAt
        · simp only [sumDay, sumWeek, if_pos hw, if_pos (And.intro hw hd)]
          exact ⟨add_le_add_right l1 _, add_le_add_right l2 _,
            add_le_add_right l3 _, add_le_add_right l4 _⟩
        · have hnd : ¬(startOfWeek < i.createdAt ∧
              startOfDay < i.createdAt) := fun h => hd h.2
          simp only [sumDay, sumWeek, if_pos hw, if_neg hnd]
          exact ⟨le_trans l1 (le_add_of_nonneg_right n1),
            le_trans l2 (le_add_of_nonneg_right n2),
            le_trans l3 (le_add_of_nonneg_right n3),
            le_trans l4 (le_add_of_nonneg_right n4)⟩
      · have hnd : ¬(startOfWeek < i.createdAt ∧
            startOfDay < i.createdAt) := fun h => hw h.1
        simp only [sumDay, sumWeek, if_neg hw, if_neg hnd]
        exact ⟨l1, l2, l3, l4⟩

/-- C6: the day filter is nested inside the week filter, so (for records
with non-negative macros, as the data model requires, and any boundaries
with startOfDay at or after startOfWeek) every component of the day total
is bounded by the week total; a record after startOfDay but not after
startOfWeek contributes nothing to the day total; and fiber and sugar are
excluded from both totals. -/
theorem day_total_within_week_total (startOfDay startOfWeek : Int)
    (infos : List NutritionalInfo)
    (hsw : startOfWeek ≤ startOfDay)
    (hnn : ∀ i ∈ infos, NonnegMacros i) :
    Totals.le (historyTotals startOfDay startOfWeek infos).1
      (historyTotals startOfDay startOfWeek infos).2 ∧
    (∀ i : NutritionalInfo, startOfDay < i.createdAt →
      ¬startOfWeek < i.createdAt →
      (historyTotals startOfDay startOfWeek [i]).1 = Totals.zero) ∧
    (∀ (i : NutritionalInfo) (rest : List NutritionalInfo) (f s : ℚ),
      historyTotals startOfDay startOfWeek
          ({ i with fiber := f, sugar := s } :: rest) =
        historyTotals startOfDay startOfWeek (i :: rest)) := by
  refine ⟨?_, ?_, ?_⟩
  · simp only [historyTotals_eq]
    exact sumDay_le_sumWeek startOfDay startOfWeek infos hnn
  · intro i hd hw
    simp only [historyTotals_eq]
    simp [sumDay, hw]
  · intro i rest f s
    simp only [historyTotals_eq]
    simp [sumDay, sumWeek, Totals.add]

/-- Witness for C6 on a concrete record list with non-negative macros. -/
theorem day_total_within_week_total_witness :
    Totals.le (historyTotals 3 1 [cBoundaryRec]).1
      (historyTotals 3 1 [cBoundaryRec]).2 ∧
    (∀ i : NutritionalInfo, 3 < i.createdAt → ¬(1 : Int) < i.createdAt →
      (historyTotals 3 1 [i]).1 = Totals.zero) ∧
    (∀ (i : NutritionalInfo) (rest : List NutritionalInfo) (f s : ℚ),
      historyTotals 3 1 ({ i with fiber := f, sugar := s } :: rest) =
        historyTotals 3 1 (i :: rest)) :=
  day_total_within_week_total 3 1 [cBoundaryRec] (by decide)
    (by
      intro i hi
      simp only [List.mem_singleton] at hi
      subst hi
      exact ⟨by decide, by decide, by decide, by decide⟩)

/-- Counterexample for C7: a scan whose `totalWeight` is the negative
number -5 is not rejected — the handler emits a `scan_result` carrying
totalWeight -5 and creates a pending entry, because the code only checks
that the field is a float64, never its sign. -/
theorem scan_negative_weight_accepted_cex :
    (handleScan cEnv initState cNegWeightData).2 =
      [OutMsg.scanResult { cDraft with
        id := uuidGen 0, totalWeight := -5,
        createdAt := 5, updatedAt := 5 }] ∧
    lookupJ (handleScan cEnv initState cNegWeightData).1.tempImageData
      (uuidGen 0) = some [1] := by
  decide

/-- C7 amended: `scan` requires `image` to be a string and `totalWeight`
to be a number (of any sign); a missing or wrong-typed field or a base64
decode failure yields an error and no further action — the state is
unchanged, so no pending entry is created and no `scan_result` is
emitted. -/
theorem scan_validation_errors (env : Env) (st : ServerState)
    (data : JObj) :
    (asString (lookupJ data "image") = none →
      handleScan env st data = (st, [OutMsg.error "Invalid image data"])) ∧
    (∀ s : String, asString (lookupJ data "image") = some s →
      asNumber (lookupJ data "totalWeight") = none →
      handleScan env st data = (st, [OutMsg.error "Invalid weight value"])) ∧
    (∀ (s : String) (w : ℚ), asString (lookupJ data "image") = some s →
      asNumber (lookupJ data "totalWeight") = some w →
      env.decodeBase64 s = none →
      handleScan env st data = (st, [OutMsg.error "Invalid image format"])) := by
  refine ⟨?_, ?_, ?_⟩
  · intro h1
    exact handleScan_invalid_image env st data h1
  · intro s h1 h2
    exact handleScan_invalid_weight env st data s h1 h2
  · intro s w h1 h2 h3
    exact handleScan_decode_failure env st data s w h1 h2 h3

/-- Witness for C7 amended: the three validation failures on concrete
payloads. -/
theorem scan_validation_errors_witness :
    handleScan cEnv initState [] =
      (initState, [OutMsg.error "Invalid image data"]) ∧
    handleScan cEnv initState cImageOnlyData =
      (initState, [OutMsg.error "Invalid weight value"]) ∧
    handleScan cEnvDecodeFail initState cImageWeightData =
      (initState, [OutMsg.error "Invalid image format"]) :=
  ⟨(scan_validation_errors cEnv initState []).1 (by decide),
    (scan_validation_errors cEnv initState cImageOnlyData).2.1 "x"
      (by decide) (by decide),
    (scan_validation_errors cEnvDecodeFail initState cImageWeightData).2.2
      "x" 1 (by decide) (by decide) rfl⟩

/-- Counterexample for C8: an unparseable envelope (a `json.Unmarshal`
failure in the read loop) produces no response at all — in particular no
error message — and leaves the state unchanged; the claim's "emits an
error response" fails for this malformation. -/
theorem unparseable_envelope_silent_cex :
    processRaw cEnv cFlagsOk initState none = (initState, []) := rfl

/-- C8 amended: an unparseable envelope is silently skipped (no response,
loop continues); a parsed envelope whose `type` is missing or not a string
yields the error "Invalid message format"; a well-typed envelope with an
unknown tag — in particular `{type:"ping"}` — yields the error "Unknown
message type"; in every case the state is unchanged and the read loop
continues, processing subsequent messages exactly as before. -/
theorem dispatch_bad_messages (env : Env) (flags : RepoFlags)
    (st : ServerState) (message : Envelope)
    (rest : List (Option Envelope)) :
    ((∀ s : String,
      lookupJ message "type" ≠ some (JTop.leaf (JValue.jstr s))) →
      handleWebSocketMessage env flags st message =
        (st, [OutMsg.error "Invalid message format"])) ∧
    (∀ t : String,
      lookupJ message "type" = some (JTop.leaf (JValue.jstr t)) →
      t ≠ "scan" → t ≠ "confirm_scan" → t ≠ "get_history" →
      handleWebSocketMessage env flags st message =
        (st, [OutMsg.error "Unknown message type"])) ∧
    processRaw env flags st none = (st, []) ∧
    handleWebSocketMessage env flags st cPingEnvelope =
      (st, [OutMsg.error "Unknown message type"]) ∧
    runLoop env flags st (some cPingEnvelope :: rest) =
      ((runLoop env flags st rest).1,
        OutMsg.error "Unknown message type" :: (runLoop env flags st rest).2) := by
  refine ⟨?_, ?_, rfl, rfl, rfl⟩
  · intro hns
    unfold handleWebSocketMessage
    split
    · next mt heq => exact absurd heq (hns mt)
    · rfl
  · intro t ht hs hc hg
    simp only [handleWebSocketMessage, ht, if_neg hs, if_neg hc, if_neg hg]

/-- Witness for C8 amended: a type-less envelope and the ping envelope at
concrete inputs. -/
theorem dispatch_bad_messages_witness :
    handleWebSocketMessage cEnv cFlagsOk initState [] =
      (initState, [OutMsg.error "Invalid message format"]) ∧
    handleWebSocketMessage cEnv cFlagsOk initState cPingEnvelope =
      (initState, [OutMsg.error "Unknown message type"]) :=
  ⟨(dispatch_bad_messages cEnv cFlagsOk initState [] []).1
      (by intro s; simp [lookupJ]),
    (dispatch_bad_messages cEnv cFlagsOk initState cPingEnvelope []).2.1
      "ping" (by decide) (by decide) (by decide) (by decide)⟩

/-- C9: the two repository writes of a confirm are not atomic — when
`SaveNutritionalInfo` succeeds and `SaveScan` then fails, the client gets
the error "Failed to save scan" and no `scan_saved`, yet the
NutritionalInfo row is already durably persisted and shows up in a
subsequent `get_history` (here: whenever the table fits in the 20-row
window). -/
theorem confirm_partial_persistence (env env2 : Env)
    (flags flags2 : RepoFlags) (st : ServerState) (data : JObj)
    (id : String) (bytes : Bytes)
    (hid : lookupJ data "id" = some (JValue.jstr id))
    (hpend : lookupJ st.tempImageData id = some bytes)
    (hf1 : flags.saveInfoFails = false)
    (hf2 : flags.saveScanFails = true)
    (hg : flags2.getRecentFails = false)
    (hlen : st.dbInfos.length + 1 ≤ 20) :
    (handleConfirmScan env flags st data).2 =
      [OutMsg.error "Failed to save scan"] ∧
    ∃ items dayT weekT,
      (handleGetHistory env2 flags2
        (handleConfirmScan env flags st data).1).2 =
        [OutMsg.history items dayT weekT] ∧
      ∃ r ∈ items, r.id = id ∧
        r.totalWeight = readNumD data "total_weight" 100 ∧
        r.calories = readNumD data "calories" 0 := by
  rw [handleConfirmScan_hit env flags st data id bytes hid hpend]
  simp only [hf1, hf2, Bool.false_eq_true, if_false, if_true]
  refine ⟨by trivial, ?_⟩
  unfold handleGetHistory
  simp only [hg, Bool.false_eq_true, if_false]
  refine ⟨_, _, _, rfl, ?_⟩
  obtain ⟨r, hr, hprops⟩ :=
    upsertInfo_exists st.dbInfos (confirmInfo env.now data id)
  refine ⟨r, mem_getRecentNutritionalInfo ?_ hr,
    hprops.1, hprops.2.1, hprops.2.2.1⟩
  exact le_trans (length_upsertInfo st.dbInfos (confirmInfo env.now data id))
    hlen

/-- Witness for C9 at the concrete one-pending state. -/
theorem confirm_partial_persistence_witness :
    (handleConfirmScan cEnv cFlagsScanFail cPending cConfirmData).2 =
      [OutMsg.error "Failed to save scan"] ∧
    ∃ items dayT weekT,
      (handleGetHistory cEnv cFlagsOk
        (handleConfirmScan cEnv cFlagsScanFail cPending cConfirmData).1).2 =
        [OutMsg.history items dayT weekT] ∧
      ∃ r ∈ items, r.id = uuidGen 0 ∧
        r.totalWeight = readNumD cConfirmData "total_weight" 100 ∧
        r.calories = readNumD cConfirmData "calories" 0 :=
  confirm_partial_persistence cEnv cEnv cFlagsScanFail cFlagsOk cPending
    cConfirmData (uuidGen 0) [1] (by decide) (by decide) rfl rfl rfl
    (by decide)
